import Mathlib

/-!
Unreal build helpers: `unreal-builder` and `unreal-utility`.

A shallow embedding of the two Go programs `unreal-builder/main.go` and
`unreal-utility/main.go`, and theorems about it.

The programs talk to the operating system all the time (directory walks, the
Windows registry, file deletion, subprocesses).  Every library or system call
is an oracle held in a `World`; every call a function makes is recorded, in
program order, as an `Event`.  A function of the source becomes a `Prog`: the
events it produced together with what it returned, or the fact that it
panicked.

`getProjectName`, `isPathValid`, `getUnrealInstallationPath`, `findFile` and
`getUBTPath` have the same text in both programs and are embedded once.
`getUprojectFile` and `main` differ and are embedded per program, in the
namespaces `Builder` and `Utility`; `deleteFiles` exists in `unreal-utility`
only.
-/

namespace Unreal

/-! ## Values and the outside world -/

/-- A Go `error` value seen by a `filepath.Walk` callback: the sentinel
`filepath.SkipDir`, or any other error (kept as its message). -/
inductive GoErr where
  | skipDir
  | msg (text : String)
deriving DecidableEq, Repr

/-- The text `err.Error()` gives. -/
def GoErr.text : GoErr → String
  | .skipDir => "skip this directory"
  | .msg t => t

/-- A decoded JSON value, as `encoding/json` stores it in an `interface{}`:
`nil`, `bool`, `float64` (kept as its literal), `string`, `[]interface{}` and
`map[string]interface{}` (an association list; a key is looked up with
`List.lookup`). -/
inductive JValue where
  | null
  | bool (b : Bool)
  | number (literal : String)
  | str (s : String)
  | array (elems : List JValue)
  | object (fields : List (String × JValue))

/-- A directory tree as `filepath.Walk` meets it.  `file` is any entry that is
not a directory (what `!info.IsDir()` accepts); `dir` lists its entries in the
order `readDirNames` returns them, with `readErr` the error of that call, if
any; `broken` is an entry whose `Lstat` fails. -/
inductive Node where
  | file (name : String)
  | dir (name : String) (readErr : Option String) (entries : List Node)
  | broken (name : String) (err : String)

/-- The entry name of a node. -/
def Node.name : Node → String
  | .file n => n
  | .dir n _ _ => n
  | .broken n _ => n

/-- Whether `info.IsDir()` holds for a node whose `Lstat` succeeded. -/
def Node.isDir : Node → Bool
  | .dir _ _ _ => true
  | _ => false

/-- What `os.Stat` reports for a path. -/
inductive StatResult where
  | found
  | notExist
  | failed (err : String)
deriving DecidableEq, Repr

/-- One call to the outside world, or one piece of text written to standard
output (colour escape codes left out). -/
inductive Event where
  | print (text : String)
  | walk (root : String)
  | readFile (path : String)
  | stat (path : String)
  | removeAll (path : String)
  | remove (path : String)
  | openKey (path : String)
  | readSubKeyNames
  | getStringValue (subkey : String) (name : String)
  | run (argv : List String)
  | stdoutPipe (argv : List String)
  | start (argv : List String)
  | scan (argv : List String)
  | wait (argv : List String)
  | scanln
  | sleep (seconds : Nat)
deriving DecidableEq, Repr

/-- The oracles for every library and system call the programs make.
Subprocess oracles are keyed by the argument vector of the command. -/
structure World where
  /-- The tree `filepath.Walk` finds at a root path. -/
  nodeAt : String → Node
  /-- Result pair of `filepath.Abs`. -/
  abs : String → String × Option String
  /-- Result of `os.ReadFile`. -/
  readFile : String → Except String String
  /-- Result of `json.Unmarshal` into a `map[string]interface{}`. -/
  unmarshal : String → Except String (List (String × JValue))
  /-- Result of `os.Stat`. -/
  stat : String → StatResult
  /-- Error of `os.RemoveAll`, `none` for `nil`. -/
  removeAll : String → Option String
  /-- Error of `os.Remove`, `none` for `nil`. -/
  remove : String → Option String
  /-- Error of `registry.OpenKey` on the Unreal Engine key. -/
  openKey : Option String
  /-- Result of `key.ReadSubKeyNames(-1)`. -/
  subkeyNames : Except String (List String)
  /-- Error of `registry.OpenKey` on a subkey. -/
  openSubkey : String → Option String
  /-- Result of `GetStringValue("InstalledDirectory")` on a subkey. -/
  installedDirectory : String → Except String String
  /-- Error of `command.Run()`. -/
  run : List String → Option String
  /-- Error of `command.StdoutPipe()`. -/
  stdoutPipe : List String → Option String
  /-- Error of `command.Start()`. -/
  start : List String → Option String
  /-- The lines the scanner yields from the pipe, and `scanner.Err()`. -/
  scan : List String → List String × Option String
  /-- Error of `command.Wait()`. -/
  wait : List String → Option String

/-! ## Programs -/

/-- How a Go function ends: it returns a value or it panics. -/
inductive Outcome (α : Type) where
  | returned (value : α)
  | panicked (reason : String)
deriving DecidableEq, Repr

/-- A run of a Go function: the events it produced and how it ended. -/
structure Prog (α : Type) where
  events : List Event
  outcome : Outcome α
deriving DecidableEq, Repr

namespace Prog

/-- Return without doing anything. -/
def ret {α : Type} (a : α) : Prog α := ⟨[], .returned a⟩

/-- Record one event. -/
def emit (e : Event) : Prog Unit := ⟨[e], .returned ()⟩

/-- A runtime panic with the given reason. -/
def abort {α : Type} (reason : String) : Prog α := ⟨[], .panicked reason⟩

/-- Sequencing: a panic ends the run, otherwise the events are appended. -/
def andThen {α β : Type} (m : Prog α) (f : α → Prog β) : Prog β :=
  match m.outcome with
  | .panicked reason => ⟨m.events, .panicked reason⟩
  | .returned a => ⟨m.events ++ (f a).events, (f a).outcome⟩

end Prog

instance : Monad Prog where
  pure := Prog.ret
  bind := Prog.andThen

/-! ## `getProjectName` (both programs) -/

/-- The `for _, module := range modules` loop of `getProjectName`: `some name`
when the loop body returned `name, nil`, `none` when the loop ran to its end. -/
def getProjectName.loop : List JValue → Prog (Option String)
  | [] => pure none
  | module :: rest =>
    match module with
    | .object moduleMap =>
      match moduleMap.lookup "Name" with
      | some (.str name) => pure (some name)
      | _ => do
        Prog.emit (.print "Name key not found in the module.\n")
        getProjectName.loop rest
    | _ => getProjectName.loop rest

/-- The function `getProjectName(uprojectPath string) (string, error)`. -/
def getProjectName (w : World) (uprojectPath : String) : Prog (String × Option String) := do
  Prog.emit (.readFile uprojectPath)
  match w.readFile uprojectPath with
  | .error _ => pure ("", some ("Error reading file: " ++ uprojectPath))
  | .ok fileContent =>
    match w.unmarshal fileContent with
    | .error err => pure ("", some err)
    | .ok jsonData =>
      match jsonData.lookup "Modules" with
      | some (.array modules) =>
        match ← getProjectName.loop modules with
        | some name => pure (name, none)
        | none => pure ("", some "No project name found.\n")
      | _ => do
        Prog.emit (.print "Modules key not found in JSON.\n")
        pure ("", some "No project name found.\n")

/-- An element of `Modules` that is an object with a string-valued `Name`. -/
def JValue.moduleName : JValue → Option String
  | .object fields =>
    match fields.lookup "Name" with
    | some (.str name) => some name
    | _ => none
  | _ => none

/-- The decoded descriptor has a `Modules` array with at least one element that
is an object with a string-valued `Name`. -/
def HasNamedModule (jsonData : List (String × JValue)) : Prop :=
  ∃ modules, jsonData.lookup "Modules" = some (.array modules) ∧
    ∃ m ∈ modules, ∃ name, m.moduleName = some name

/-! ## Paths -/

/-- The function `os.IsPathSeparator` on Windows. -/
def IsPathSeparator (c : Char) : Bool := c = '\\' || c = '/'

/-- The loop of `filepath.Ext`, run over the characters of the path from the
last one backwards; `acc` holds the characters already passed. -/
def Ext.scan : List Char → List Char → List Char
  | [], _ => []
  | c :: before, acc =>
    if IsPathSeparator c then []
    else if c = '.' then '.' :: acc
    else Ext.scan before (c :: acc)

/-- The function `filepath.Ext`: the suffix beginning at the final dot in the
final element of the path, empty if there is no dot. -/
def Ext (path : String) : String := ⟨Ext.scan path.data.reverse []⟩

/-- The function `filepath.Join` on Windows, for elements that are clean paths
and entry names: empty elements are dropped, the others are joined with the
separator, and `Clean` then drops a leading `.` element and changes nothing
else. -/
def Join (elem : List String) : String :=
  match elem.filter (fun e => e ≠ "") with
  | [] => ""
  | "." :: e :: rest => "\\".intercalate (e :: rest)
  | es => "\\".intercalate es

/-! ## `filepath.Walk` -/

/-- The part of `os.FileInfo` the callbacks read. -/
structure FileInfo where
  name : String
  isDir : Bool
deriving DecidableEq, Repr

/-- The three ways `filepath.Walk` calls its callback `fn(path, info, err)`:
`entry info` is `fn(path, info, nil)`; `unreadable info err` is
`fn(path, info, err)` for a directory whose names could not be read;
`failed err` is `fn(path, nil, err)` after a failed `Lstat`. -/
inductive Visit where
  | entry (info : FileInfo)
  | unreadable (info : FileInfo) (err : GoErr)
  | failed (err : GoErr)
deriving DecidableEq, Repr

/-- A `filepath.WalkFunc` closing over one variable of type `σ`: from the value
of the variable and the call, the new value and the returned error. -/
abbrev WalkFunc (σ : Type) := σ → String → Visit → σ × Option GoErr

mutual
/-- The unexported `walk(path, info, walkFn)` of `path/filepath`; on a `broken`
node it is the call `fn(root, nil, err)` that `Walk` makes when `Lstat` of the
root fails. -/
def walk {σ : Type} (walkFn : WalkFunc σ) (path : String) : Node → σ → σ × Option GoErr
  | .file name, s => walkFn s path (.entry ⟨name, false⟩)
  | .broken _ err, s => walkFn s path (.failed (.msg err))
  | .dir name readErr entries, s =>
    match readErr with
    | some err => walkFn s path (.unreadable ⟨name, true⟩ (.msg err))
    | none =>
      match walkFn s path (.entry ⟨name, true⟩) with
      | (s1, some err1) => (s1, some err1)
      | (s1, none) => walkNames walkFn path entries s1
/-- The loop `for _, name := range names` inside `walk`. -/
def walkNames {σ : Type} (walkFn : WalkFunc σ) (path : String) : List Node → σ → σ × Option GoErr
  | [], s => (s, none)
  | child :: rest, s =>
    match child with
    | .broken name err =>
      match walkFn s (Join [path, name]) (.failed (.msg err)) with
      | (s1, some e) =>
        if e ≠ .skipDir then (s1, some e) else walkNames walkFn path rest s1
      | (s1, none) => walkNames walkFn path rest s1
    | _ =>
      match walk walkFn (Join [path, child.name]) child s with
      | (s1, some e) =>
        if !child.isDir || e ≠ .skipDir then (s1, some e) else walkNames walkFn path rest s1
      | (s1, none) => walkNames walkFn path rest s1
end

/-- The function `filepath.Walk(root, fn)`, on the tree found at `root`: a
`SkipDir` that reaches the top is turned into `nil`. -/
def Walk {σ : Type} (walkFn : WalkFunc σ) (root : String) (tree : Node) (s : σ) :
    σ × Option GoErr :=
  match walk walkFn root tree s with
  | (s1, some .skipDir) => (s1, none)
  | r => r

/-! ## `getUprojectFile` -/

/-- The callback `getUprojectFile` hands to `filepath.Walk` (same text in both
programs); the variable it closes over is `uprojectPath`. -/
def getUprojectFile.walkFn (w : World) : WalkFunc String := fun uprojectPath path visit =>
  match visit with
  | .failed err => (uprojectPath, some err)
  | .unreadable _ err => (uprojectPath, some err)
  | .entry info =>
    if !info.isDir && Ext path == ".uproject" then
      match w.abs path with
      | (p, some err) => (p, some (.msg err))
      | (p, none) => (p, some .skipDir)
    else (uprojectPath, none)

/-- The function `getUprojectFile` of `unreal-utility`. -/
def Utility.getUprojectFile (w : World) : Prog (String × Option String) := do
  let rootPath := "."
  Prog.emit (.walk rootPath)
  match Walk (getUprojectFile.walkFn w) rootPath (w.nodeAt rootPath) "" with
  | (_, some walkError) =>
    pure ("", some ("Error while searching for uproject file: " ++ walkError.text))
  | (uprojectPath, none) =>
    if uprojectPath = "" then
      pure ("", some ("No uproject file found in directory: " ++ (w.abs rootPath).1 ++
        "\nAre you sure this exe file is located in an unreal engine project?"))
    else pure (uprojectPath, none)

/-- The function `getUprojectFile` of `unreal-builder`; only the text of the
not-found error differs. -/
def Builder.getUprojectFile (w : World) : Prog (String × Option String) := do
  let rootPath := "."
  Prog.emit (.walk rootPath)
  match Walk (getUprojectFile.walkFn w) rootPath (w.nodeAt rootPath) "" with
  | (_, some walkError) =>
    pure ("", some ("Error while searching for uproject file: " ++ walkError.text))
  | (uprojectPath, none) =>
    if uprojectPath = "" then
      pure ("", some ("No uproject file found in this directory. " ++ (w.abs rootPath).1 ++
        "\nAre you sure this exe file is located in an unreal engine project?"))
    else pure (uprojectPath, none)

mutual
/-- The paths of all non-directory entries with extension `.uproject` in a
tree, in depth-first order (a directory before its entries, the entries in
listing order). -/
def uprojectFiles (path : String) : Node → List String
  | .file _ => if Ext path == ".uproject" then [path] else []
  | .broken _ _ => []
  | .dir _ _ entries => uprojectFilesIn path entries
/-- The `.uproject` files below the entries of the directory at `path`. -/
def uprojectFilesIn (path : String) : List Node → List String
  | [] => []
  | child :: rest => uprojectFiles (Join [path, child.name]) child ++ uprojectFilesIn path rest
end

mutual
/-- No I/O error anywhere in the tree: every `Lstat` succeeds and every
directory can be listed. -/
def Node.readable : Node → Bool
  | .file _ => true
  | .broken _ _ => false
  | .dir _ readErr entries => readErr.isNone && Node.allReadable entries
/-- Every entry of a listing is `readable`. -/
def Node.allReadable : List Node → Bool
  | [] => true
  | child :: rest => child.readable && Node.allReadable rest
end

/-! ## `deleteFiles` (`unreal-utility` only) -/

/-- The loop `for _, path := range folderList` of `deleteFiles`, threading
`errorList`. -/
def Utility.deleteFiles.removeFolders (w : World) :
    List String → List (Option String) → Prog (List (Option String))
  | [], errorList => pure errorList
  | path :: rest, errorList => do
    Prog.emit (.removeAll path)
    let err := w.removeAll path
    Utility.deleteFiles.removeFolders w rest (errorList ++ [err])

/-- The loop `for _, path := range fileList` of `deleteFiles`: a file that
`os.Stat` reports as not existing is passed over, any other is removed. -/
def Utility.deleteFiles.removeFiles (w : World) :
    List String → List (Option String) → Prog (List (Option String))
  | [], errorList => pure errorList
  | path :: rest, errorList => do
    Prog.emit (.stat path)
    match w.stat path with
    | .notExist => Utility.deleteFiles.removeFiles w rest errorList
    | _ => do
      Prog.emit (.remove path)
      let err := w.remove path
      Utility.deleteFiles.removeFiles w rest (errorList ++ [err])

/-- The loop `for _, err := range errorList` of `deleteFiles`, threading
`errorString`. -/
def Utility.deleteFiles.sumErrors : List (Option String) → String → String
  | [], errorString => errorString
  | none :: rest, errorString => Utility.deleteFiles.sumErrors rest errorString
  | some err :: rest, errorString =>
    Utility.deleteFiles.sumErrors rest (errorString ++ (err ++ "\n"))

/-- The function `deleteFiles(projectName string) error`; the result is the
text of the returned error, `none` for `nil`. -/
def Utility.deleteFiles (w : World) (projectName : String) : Prog (Option String) := do
  let folderList := [".vs", "Binaries", "Build", "Intermediate", "DerivedDataCache"]
  let fileList := [projectName ++ ".sln"]
  let errorList ← Utility.deleteFiles.removeFolders w folderList []
  let errorList ← Utility.deleteFiles.removeFiles w fileList errorList
  let errorString := Utility.deleteFiles.sumErrors errorList ""
  if errorString ≠ "" then pure (some errorString) else pure none

/-! ## Locating the build tool (both programs) -/

/-- The function `isPathValid(path string) bool`. -/
def isPathValid (w : World) (path : String) : Prog Bool := do
  Prog.emit (.stat path)
  match w.stat path with
  | .found => pure true
  | .notExist => pure false
  | .failed _ => pure false

/-- A Go index expression `xs[i]`: the element when `0 ≤ i < len(xs)`, no value
(a run-time panic) otherwise. -/
def indexAt (xs : List String) (i : Int) : Option String :=
  if 0 ≤ i ∧ i < xs.length then xs[i.toNat]? else none

/-- The function `getUnrealInstallationPath() (string, error)`.  The deferred
`Close` calls have no effect on the result and are left out. -/
def getUnrealInstallationPath (w : World) : Prog (String × Option String) := do
  Prog.emit (.openKey "SOFTWARE\\\\EpicGames\\\\Unreal Engine")
  match w.openKey with
  | some err => pure ("", some ("Error opening registry key: " ++ err))
  | none =>
    Prog.emit .readSubKeyNames
    match w.subkeyNames with
    | .error err => pure ("", some ("Error reading subkey names: " ++ err))
    | .ok subkeyNames =>
      let index : Int := (subkeyNames.length : Int) - 1
      match indexAt subkeyNames index with
      | none => Prog.abort ("runtime error: index out of range [" ++ toString index ++ "]")
      | some lastSubkey =>
        Prog.emit (.openKey lastSubkey)
        match w.openSubkey lastSubkey with
        | some err => pure ("", some ("Error opening last subkey: " ++ err))
        | none =>
          Prog.emit (.getStringValue lastSubkey "InstalledDirectory")
          match w.installedDirectory lastSubkey with
          | .error err => pure ("", some ("Error reading InstalledDirectory value: " ++ err))
          | .ok installDir => pure (installDir, none)

/-- The callback `findFile` hands to `filepath.Walk`; the variable it closes
over is `filePath`. -/
def findFile.walkFn (name : String) : WalkFunc String := fun filePath path visit =>
  match visit with
  | .failed err => (filePath, some err)
  | .unreadable _ err => (filePath, some err)
  | .entry info =>
    if info.isDir then (filePath, none)
    else if info.name = name then (path, some .skipDir)
    else (filePath, none)

/-- The function `findFile(root, name string) (string, error)`. -/
def findFile (w : World) (root name : String) : Prog (String × Option String) := do
  Prog.emit (.walk root)
  match Walk (findFile.walkFn name) root (w.nodeAt root) "" with
  | (_, some err) => pure ("", some ("Error while searching for file: " ++ err.text))
  | (filePath, none) =>
    if filePath = "" then
      pure ("", some ("File \x27" ++ name ++ "\x27 not found in directory \x27" ++ root ++ "\x27"))
    else pure (filePath, none)

/-- The function `getUBTPath() (string, error)`. -/
def getUBTPath (w : World) : Prog (String × Option String) := do
  let (installPath, err) ← getUnrealInstallationPath w
  match err with
  | some e => pure ("", some e)
  | none =>
    if !(← isPathValid w installPath) then
      pure ("", some ("Invalid path: " ++ installPath))
    else
      let ubtPath := Join [installPath, "Engine", "Binaries", "DotNET", "UnrealBuildTool",
        "UnrealBuildTool.exe"]
      if (← isPathValid w ubtPath) then
        pure (ubtPath, none)
      else
        Prog.emit (.print "UnrealBuildTool.exe not found in default path. Searching for it...")
        let (ubtPath, err) ← findFile w installPath "UnrealBuildTool.exe"
        match err with
        | some e => do
          Prog.emit (.print " not found.\n")
          pure ("", some e)
        | none => do
          Prog.emit (.print " found.\n")
          pure (ubtPath, none)

/-- Lexicographic order on character lists by code point, which is how Go
compares strings (byte-wise on UTF-8). -/
def lexLess : List Char → List Char → Bool
  | _, [] => false
  | [], _ :: _ => true
  | a :: as, b :: bs => a.toNat < b.toNat || (a.toNat = b.toNat && lexLess as bs)

/-- The comparison `a <= b` on Go strings. -/
def strLE (a b : String) : Bool := !lexLess b.data a.data

/-- The lexicographically greatest of a list of names, `none` for no names. -/
def lexGreatest : List String → Option String
  | [] => none
  | a :: rest =>
    match lexGreatest rest with
    | none => some a
    | some b => if strLE a b then some b else some a

/-! ## The entry workflows

`color.Red`, `color.Green` and `Println` end the text with a newline; the
colour codes are left out of the recorded text. -/

/-- The loop `for scanner.Scan() { fmt.Println(scanner.Text()) }`. -/
def printLines : List String → Prog Unit
  | [] => pure ()
  | line :: rest => do
    Prog.emit (.print (line ++ "\n"))
    printLines rest

/-- The arguments of the compile command. -/
def compileArgv (ubtPath uprojectPath projectName : String) : List String :=
  [ubtPath, uprojectPath, projectName ++ "Editor", "Development", "Win64", "-WaitMutex"]

/-- The arguments of the command that regenerates the project files. -/
def generateArgv (ubtPath uprojectPath : String) : List String :=
  [ubtPath, uprojectPath, "-Game", "-CurrentPlatform", "-ProjectFiles"]

/-- The function `freezeConsoleWindow()` of `unreal-builder`. -/
def Builder.freezeConsoleWindow : Prog Unit := do
  Prog.emit (.print "\nPress Enter to exit...\n")
  Prog.emit .scanln

/-- The function `main()` of `unreal-builder`.  When `StdoutPipe` fails the
pipe is `nil` and the first `scanner.Scan()` dereferences it. -/
def Builder.main (w : World) : Prog Unit := do
  Prog.emit (.print "Unreal Builder v0.1\n\n")
  let (uprojectPath, err) ← Builder.getUprojectFile w
  match err with
  | some e => do
    Prog.emit (.print (e ++ "\n"))
    Builder.freezeConsoleWindow
  | none =>
    let (projectName, err) ← getProjectName w uprojectPath
    if let some e := err then
      Prog.emit (.print (e ++ "\n"))
      Builder.freezeConsoleWindow
    Prog.emit (.print ("Project " ++ projectName ++ " was found.\n"))
    let (ubtPath, err) ← getUBTPath w
    match err with
    | some e => do
      Prog.emit (.print (e ++ "\n"))
      Builder.freezeConsoleWindow
    | none =>
      Prog.emit (.print ("Found UBT path: " ++ ubtPath ++ "\n"))
      Prog.emit (.print "Compiling project...\n")
      let command := compileArgv ubtPath uprojectPath projectName
      Prog.emit (.stdoutPipe command)
      let pipeErr := w.stdoutPipe command
      if let some e := pipeErr then
        Prog.emit (.print ("Error creating stdout pipe: " ++ e ++ "\n"))
        Builder.freezeConsoleWindow
      Prog.emit (.start command)
      if let some e := w.start command then
        Prog.emit (.print ("Error starting compile command: " ++ e ++ "\n"))
        Builder.freezeConsoleWindow
      Prog.emit (.scan command)
      if pipeErr.isSome then
        Prog.abort "runtime error: invalid memory address or nil pointer dereference"
      printLines (w.scan command).1
      if let some e := (w.scan command).2 then
        Prog.emit (.print ("Error reading from pipe: " ++ e ++ "\n"))
        Builder.freezeConsoleWindow
      Prog.emit (.wait command)
      match w.wait command with
      | some e => do
        Prog.emit (.print ("Compile error: " ++ e ++ "\n"))
        Builder.freezeConsoleWindow
      | none =>
        Prog.emit (.print "Finished compiling project.\n")
        Prog.emit (.print ("\n" ++ projectName ++ " was successfully rebuilt.\n"))
        Builder.freezeConsoleWindow

/-- The function `main()` of `unreal-utility`.  When `StdoutPipe` fails the
pipe is `nil` and the first `scanner.Scan()` dereferences it. -/
def Utility.main (w : World) : Prog Unit := do
  Prog.emit (.print "Unreal Utility v0.1\n\n")
  let (uprojectPath, err) ← Utility.getUprojectFile w
  match err with
  | some e => Prog.emit (.print (e ++ "\n"))
  | none =>
    let (projectName, err) ← getProjectName w uprojectPath
    if let some e := err then
      Prog.emit (.print (e ++ "\n"))
    Prog.emit (.print ("Project " ++ projectName ++ " was found.\n"))
    Prog.emit (.print "Deleting temporary files...")
    match ← Utility.deleteFiles w projectName with
    | some e => Prog.emit (.print ("Error deleting files: " ++ e ++ "\n"))
    | none =>
      Prog.emit (.print " done.\n")
      let (ubtPath, err) ← getUBTPath w
      match err with
      | some e => Prog.emit (.print (e ++ "\n"))
      | none =>
        Prog.emit (.print ("Found UBT path: " ++ ubtPath ++ "\n"))
        Prog.emit (.print "Generating project files...\n")
        let command := generateArgv ubtPath uprojectPath
        Prog.emit (.run command)
        match w.run command with
        | some e => Prog.emit (.print ("Error generating project files: " ++ e ++ "\n"))
        | none =>
          Prog.emit (.print "Finished generating project files.\n")
          Prog.emit (.print "Compiling project...\n")
          let command := compileArgv ubtPath uprojectPath projectName
          Prog.emit (.stdoutPipe command)
          let pipeErr := w.stdoutPipe command
          if let some e := pipeErr then
            Prog.emit (.print ("Error creating stdout pipe: " ++ e ++ "\n"))
          Prog.emit (.start command)
          if let some e := w.start command then
            Prog.emit (.print ("Error starting compile command: " ++ e ++ "\n"))
          Prog.emit (.scan command)
          if pipeErr.isSome then
            Prog.abort "runtime error: invalid memory address or nil pointer dereference"
          printLines (w.scan command).1
          if let some e := (w.scan command).2 then
            Prog.emit (.print ("Error reading from pipe: " ++ e ++ "\n"))
          Prog.emit (.wait command)
          match w.wait command with
          | some e => Prog.emit (.print ("Compile error: " ++ e ++ "\n"))
          | none =>
            Prog.emit (.print "Finished compiling project.\n")
            Prog.emit (.print ("\n" ++ projectName ++ " was successfully rebuilt.\n"))
            Prog.emit (.sleep 2)

/-! ## Concrete worlds -/

/-- A machine with nothing on it: no files, an Unreal Engine registry key
without entries, and commands that run and print nothing. -/
def bareWorld : World where
  nodeAt := fun _ => .broken "" "The system cannot find the file specified."
  abs := fun p => (if p = "." then "C:\\Project" else "C:\\Project\\" ++ p, none)
  readFile := fun _ => .error "The system cannot find the file specified."
  unmarshal := fun _ => .error "unexpected end of JSON input"
  stat := fun _ => .notExist
  removeAll := fun _ => none
  remove := fun _ => none
  openKey := none
  subkeyNames := .ok []
  openSubkey := fun _ => none
  installedDirectory := fun _ => .error "The system cannot find the file specified."
  run := fun _ => none
  stdoutPipe := fun _ => none
  start := fun _ => none
  scan := fun _ => ([], none)
  wait := fun _ => none

/-- A registry whose Unreal Engine key lists the given entry names in the given
order, each entry holding an installation directory named after it. -/
def registryWorld (names : List String) : World :=
  { bareWorld with
    subkeyNames := .ok names
    installedDirectory := fun n => .ok ("C:\\Program Files\\Epic Games\\UE_" ++ n) }

/-- A project directory holding the given tree; paths are made absolute under
`C:\Project`. -/
def projectWorld (tree : Node) : World :=
  { bareWorld with nodeAt := fun _ => tree }

/-- A tree with one descriptor, three levels down, among other files and
directories. -/
def deepTree : Node :=
  .dir "." none
    [.file ".gitignore",
      .dir "Config" none [.file "DefaultEngine.ini"],
      .dir "Game" none
        [.dir "Content" none [.file "Map.umap"],
          .dir "Proj" none [.file "Demo.uproject", .file "Readme.md"],
          .file "notes.txt"],
      .dir "Source" none [.file "Demo.cpp"],
      .file "zz.txt"]

/-- A tree without a descriptor file; the directory `Old.uproject` is not
one. -/
def noDescriptorTree : Node :=
  .dir "." none
    [.dir "Old.uproject" none [.file "readme.txt"],
      .dir "Source" none [.file "Demo.cpp"],
      .file "notes.txt"]

/-- A tree with two descriptors, in the sibling directories `a` and `b`. -/
def twoDescriptorsTree : Node :=
  .dir "." none
    [.dir "a" none [.file "x.uproject", .file "z.txt"],
      .dir "b" none [.file "y.uproject"]]

/-- The installation directory `registryWorld` gives the entry `5.3`. -/
def engineDir : String := "C:\\Program Files\\Epic Games\\UE_5.3"

/-- The conventional place of the build tool under `engineDir`. -/
def engineUBT : String :=
  "C:\\Program Files\\Epic Games\\UE_5.3\\Engine\\Binaries\\DotNET\\UnrealBuildTool\\UnrealBuildTool.exe"

/-- An engine installation with the build tool at its conventional place and
two more files of the same name, one met before it by a walk and one after. -/
def engineTree : Node :=
  .dir "UE_5.3" none
    [.dir "AAA" none [.file "UnrealBuildTool.exe"],
      .dir "Engine" none
        [.dir "Binaries" none
          [.dir "DotNET" none
            [.dir "UnrealBuildTool" none [.file "UnrealBuildTool.exe"]]]],
      .dir "Zed" none [.file "UnrealBuildTool.exe"]]

/-- A machine with Unreal Engine 5.3 installed as `engineTree`. -/
def engineWorld : World :=
  { registryWorld ["5.3"] with
    nodeAt := fun _ => engineTree
    stat := fun p => if p = engineDir ∨ p = engineUBT then .found else .notExist }

/-- A machine with Unreal Engine 5.3 installed and, in the working directory, a
project whose descriptor `Demo.uproject` is the JSON object without any key;
the compile command cannot be started. -/
def brokenDescriptorWorld : World :=
  { engineWorld with
    nodeAt := fun root =>
      if root = "." then .dir "." none [.file "Demo.uproject", .dir "Source" none []]
      else engineTree
    readFile := fun p =>
      if p = "C:\\Project\\Demo.uproject" then .ok "\x7b\x7d" else .error "file does not exist"
    unmarshal := fun content =>
      if content = "\x7b\x7d" then .ok [] else .error "unexpected end of JSON input"
    start := fun _ => some "exec: file does not exist"
    scan := fun _ => ([], some "read |0: file already closed")
    wait := fun _ => some "exec: not started" }

/-- Whether an event is text written to standard output. -/
def Event.isPrint : Event → Bool
  | .print _ => true
  | _ => false

/-- Whether an event is a call to the registry. -/
def Event.isRegistry : Event → Bool
  | .openKey _ => true
  | .readSubKeyNames => true
  | .getStringValue _ _ => true
  | _ => false

/-- A project whose descriptor file reads and decodes to the given JSON
object. -/
def descriptorWorld (jsonData : List (String × JValue)) : World :=
  { bareWorld with
    readFile := fun _ => .ok "descriptor"
    unmarshal := fun _ => .ok jsonData }

/-- A descriptor whose first module has no `Name`, followed by the modules
`Foo` and `Bar`. -/
def fooBarDescriptor : List (String × JValue) :=
  [("FileVersion", .number "3"),
    ("Modules", .array
      [.object [("Type", .str "Runtime")],
        .object [("Name", .str "Foo"), ("Type", .str "Runtime")],
        .object [("Name", .str "Bar")]])]

/-! ### Lemmas on the module loop -/

theorem loop_outcome_skip (pre : List JValue) (rest : List JValue)
    (hpre : ∀ m ∈ pre, m.moduleName = none) :
    (getProjectName.loop (pre ++ rest)).outcome = (getProjectName.loop rest).outcome := by
  induction pre with
  | nil => rfl
  | cons m pre ih =>
    have hm := hpre m (List.mem_cons_self _ _)
    have ih' := ih (fun x hx => hpre x (List.mem_cons_of_mem _ hx))
    cases m with
    | object fields =>
      simp only [JValue.moduleName] at hm
      simp only [List.cons_append, getProjectName.loop]
      split
      · rename_i name hname
        simp [hname] at hm
      · simp only [bind, Prog.andThen, Prog.emit]
        exact ih'
    | _ => simpa only [List.cons_append, getProjectName.loop] using ih'

theorem loop_outcome_hit (m : JValue) (rest : List JValue) (name : String)
    (hm : m.moduleName = some name) :
    (getProjectName.loop (m :: rest)).outcome = .returned (some name) := by
  cases m with
  | object fields =>
    simp only [JValue.moduleName] at hm
    simp only [getProjectName.loop]
    split
    · rename_i n hn
      simp [hn] at hm
      subst hm
      rfl
    · rename_i hne
      split at hm
      · rename_i n hn
        exact absurd hn (hne n)
      · simp at hm
  | _ => simp [JValue.moduleName] at hm

theorem loop_outcome_none (modules : List JValue)
    (h : ∀ m ∈ modules, m.moduleName = none) :
    (getProjectName.loop modules).outcome = .returned none := by
  have := loop_outcome_skip modules [] h
  simpa [getProjectName.loop] using this

theorem getProjectName_outcome_modules (w : World) (path content : String)
    (jsonData : List (String × JValue)) (modules : List JValue)
    (hread : w.readFile path = .ok content) (hparse : w.unmarshal content = .ok jsonData)
    (hmods : jsonData.lookup "Modules" = some (.array modules)) :
    (getProjectName w path).outcome =
      match (getProjectName.loop modules).outcome with
      | .returned (some name) => .returned (name, none)
      | .returned none => .returned ("", some "No project name found.\n")
      | .panicked reason => .panicked reason := by
  simp only [getProjectName, hread, hparse, hmods, bind, Prog.andThen, Prog.emit, pure, Prog.ret]
  cases h : (getProjectName.loop modules).outcome with
  | returned v => cases v <;> rfl
  | panicked r => rfl

theorem getProjectName_outcome_no_modules (w : World) (path content : String)
    (jsonData : List (String × JValue))
    (hread : w.readFile path = .ok content) (hparse : w.unmarshal content = .ok jsonData)
    (hmods : ∀ modules, jsonData.lookup "Modules" ≠ some (.array modules)) :
    (getProjectName w path).outcome = .returned ("", some "No project name found.\n") := by
  simp only [getProjectName, hread, hparse, bind, Prog.andThen, Prog.emit, pure, Prog.ret]

theorem exists_first_named (modules : List JValue)
    (h : ∃ m ∈ modules, ∃ name, m.moduleName = some name) :
    ∃ pre m post name, modules = pre ++ m :: post ∧ m.moduleName = some name ∧
      ∀ x ∈ pre, x.moduleName = none := by
  induction modules with
  | nil => simp at h
  | cons a rest ih =>
    cases ha : a.moduleName with
    | some name => exact ⟨[], a, rest, name, rfl, ha, by simp⟩
    | none =>
      obtain ⟨m, hmem, name, hname⟩ := h
      have hrest : ∃ m ∈ rest, ∃ name, m.moduleName = some name := by
        rcases List.mem_cons.mp hmem with rfl | hm
        · rw [ha] at hname; cases hname
        · exact ⟨m, hm, name, hname⟩
      obtain ⟨pre, m', post, name', hsplit, hm', hpre⟩ := ih hrest
      refine ⟨a :: pre, m', post, name', by simp [hsplit], hm', ?_⟩
      intro x hx
      rcases List.mem_cons.mp hx with rfl | hx'
      · exact ha
      · exact hpre x hx'

/-! ## Theorems -/

/-- C1: when the descriptor parses as a JSON object whose `Modules` array has an
element that is an object with a string-valued `Name`, `getProjectName` returns
without error the `Name` of the first such element, skipping every earlier
element that is not an object or has no string `Name`. -/
theorem getProjectName_first_named (w : World) (path content : String)
    (jsonData : List (String × JValue)) (pre post : List JValue) (m : JValue) (name : String)
    (hread : w.readFile path = .ok content) (hparse : w.unmarshal content = .ok jsonData)
    (hmods : jsonData.lookup "Modules" = some (.array (pre ++ m :: post)))
    (hpre : ∀ x ∈ pre, x.moduleName = none) (hm : m.moduleName = some name) :
    (getProjectName w path).outcome = .returned (name, none) := by
  rw [getProjectName_outcome_modules w path content jsonData _ hread hparse hmods,
    loop_outcome_skip pre (m :: post) hpre, loop_outcome_hit m post name hm]

/-- C1, witness: the modules `[{no Name}, {Name: "Foo"}, {Name: "Bar"}]` give
`Foo`. -/
theorem getProjectName_first_named_witness :
    (getProjectName (descriptorWorld fooBarDescriptor) "Demo.uproject").outcome =
      .returned ("Foo", none) :=
  getProjectName_first_named (descriptorWorld fooBarDescriptor) "Demo.uproject" "descriptor"
    fooBarDescriptor [.object [("Type", .str "Runtime")]] [.object [("Name", .str "Bar")]]
    (.object [("Name", .str "Foo"), ("Type", .str "Runtime")]) "Foo" rfl rfl rfl
    (by decide) rfl

/-- C9: when the descriptor parses as a JSON object, `getProjectName` returns,
and it returns an error exactly when no element of `Modules` qualifies; the
name returned with an error is empty.  In particular it fails when `Modules` is
absent, is not an array, or is the empty array. -/
theorem getProjectName_error_iff (w : World) (path content : String)
    (jsonData : List (String × JValue))
    (hread : w.readFile path = .ok content) (hparse : w.unmarshal content = .ok jsonData) :
    (∃ name err, (getProjectName w path).outcome = .returned (name, err) ∧
        (err ≠ none ↔ ¬ HasNamedModule jsonData) ∧ (err ≠ none → name = "")) ∧
      ((jsonData.lookup "Modules" = none ∨ jsonData.lookup "Modules" = some (.array []) ∨
          (∀ modules, jsonData.lookup "Modules" ≠ some (.array modules))) →
        (getProjectName w path).outcome = .returned ("", some "No project name found.\n")) := by
  refine ⟨?_, ?_⟩
  · by_cases hq : HasNamedModule jsonData
    · obtain ⟨modules, hmods, hex⟩ := hq
      obtain ⟨pre, m, post, name, hsplit, hm, hpre⟩ := exists_first_named modules hex
      refine ⟨name, none, ?_, ?_, ?_⟩
      · rw [getProjectName_outcome_modules w path content jsonData _ hread hparse hmods, hsplit,
          loop_outcome_skip pre (m :: post) hpre, loop_outcome_hit m post name hm]
      · simp only [ne_eq, not_true_eq_false, false_iff, not_not]
        exact ⟨modules, hmods, hex⟩
      · intro h; exact absurd rfl h
    · refine ⟨"", some "No project name found.\n", ?_, ?_, ?_⟩
      · by_cases harr : ∃ modules, jsonData.lookup "Modules" = some (.array modules)
        · obtain ⟨modules, hmods⟩ := harr
          have hnone : ∀ x ∈ modules, x.moduleName = none := by
            intro x hx
            cases hx' : x.moduleName with
            | none => rfl
            | some n => exact absurd ⟨modules, hmods, x, hx, n, hx'⟩ hq
          rw [getProjectName_outcome_modules w path content jsonData _ hread hparse hmods,
            loop_outcome_none modules hnone]
        · exact getProjectName_outcome_no_modules w path content jsonData hread hparse
            (fun modules h => harr ⟨modules, h⟩)
      · simp [hq]
      · intro _; rfl
  · rintro (h | h | h)
    · exact getProjectName_outcome_no_modules w path content jsonData hread hparse
        (fun modules hm => by rw [h] at hm; cases hm)
    · rw [getProjectName_outcome_modules w path content jsonData _ hread hparse h]
      rfl
    · exact getProjectName_outcome_no_modules w path content jsonData hread hparse h

/-- C9, witness: a descriptor with an empty `Modules` array and one without
`Modules` both fail, with the empty name. -/
theorem getProjectName_error_iff_witness :
    (getProjectName (descriptorWorld [("Modules", .array [])]) "Demo.uproject").outcome =
        .returned ("", some "No project name found.\n") ∧
      (getProjectName (descriptorWorld [("FileVersion", .number "3")])
          "Demo.uproject").outcome =
        .returned ("", some "No project name found.\n") :=
  ⟨(getProjectName_error_iff (descriptorWorld [("Modules", .array [])]) "Demo.uproject"
      "descriptor" [("Modules", .array [])] rfl rfl).2 (Or.inr (Or.inl rfl)),
    (getProjectName_error_iff (descriptorWorld [("FileVersion", .number "3")]) "Demo.uproject"
      "descriptor" [("FileVersion", .number "3")] rfl rfl).2 (Or.inl rfl)⟩

/-! ### Lemmas on `deleteFiles` -/

theorem removeFolders_eq (w : World) (l : List String) (acc : List (Option String)) :
    Utility.deleteFiles.removeFolders w l acc =
      ⟨l.map Event.removeAll, .returned (acc ++ l.map w.removeAll)⟩ := by
  induction l generalizing acc with
  | nil => simp [Utility.deleteFiles.removeFolders, pure, Prog.ret]
  | cons p rest ih =>
    simp [Utility.deleteFiles.removeFolders, bind, Prog.andThen, Prog.emit, ih]

theorem join_cons (x : String) (xs : List String) : String.join (x :: xs) = x ++ String.join xs := by
  have h : ∀ (l : List String) (acc : String), List.foldl (fun r s => r ++ s) acc l = acc ++ List.foldl (fun r s => r ++ s) "" l := by
    intro l
    induction l with
    | nil => intro acc; simp
    | cons y ys ih =>
      intro acc
      simp only [List.foldl_cons]
      rw [ih (acc ++ y), ih ("" ++ y)]
      simp [String.append_assoc]
  simp only [String.join, List.foldl_cons]
  rw [h xs ("" ++ x)]
  simp

theorem sumErrors_eq (l : List (Option String)) (s : String) :
    Utility.deleteFiles.sumErrors l s =
      s ++ String.join ((l.filterMap id).map (fun e => e ++ "\n")) := by
  induction l generalizing s with
  | nil => simp [Utility.deleteFiles.sumErrors, String.join]
  | cons a rest ih =>
    cases a with
    | none => simp [Utility.deleteFiles.sumErrors, ih]
    | some e => simp [Utility.deleteFiles.sumErrors, ih, join_cons, String.append_assoc]

theorem join_lines_ne_empty (l : List String) (h : l ≠ []) :
    String.join (l.map (fun e => e ++ "\n")) ≠ "" := by
  cases l with
  | nil => exact absurd rfl h
  | cons x xs =>
    intro hEq
    have hlen := congrArg String.length hEq
    simp only [List.map_cons, join_cons, String.length_append] at hlen
    have h1 : ("\n" : String).length = 1 := rfl
    have h0 : ("" : String).length = 0 := rfl
    omega

theorem removeFiles_single (w : World) (path : String) (acc : List (Option String)) :
    Utility.deleteFiles.removeFiles w [path] acc =
      ⟨Event.stat path :: (if w.stat path = .notExist then [] else [Event.remove path]),
        .returned (acc ++ (if w.stat path = .notExist then [] else [w.remove path]))⟩ := by
  cases h : w.stat path <;>
    simp [Utility.deleteFiles.removeFiles, bind, Prog.andThen, Prog.emit, pure, Prog.ret, h]

theorem errorText_eq (el : List (Option String)) :
    (if Utility.deleteFiles.sumErrors el "" ≠ "" then
        some (Utility.deleteFiles.sumErrors el "") else none) =
      (if el.filterMap id = [] then none
        else some (String.join ((el.filterMap id).map (fun e => e ++ "\n")))) := by
  rw [sumErrors_eq]
  by_cases hl : el.filterMap id = []
  · simp [hl, String.join]
  · have := join_lines_ne_empty _ hl
    simp [hl, this]

theorem deleteFiles_run (w : World) (projectName : String) :
    Utility.deleteFiles w projectName =
      ⟨[".vs", "Binaries", "Build", "Intermediate", "DerivedDataCache"].map Event.removeAll ++
          (Event.stat (projectName ++ ".sln") ::
            (if w.stat (projectName ++ ".sln") = .notExist then []
              else [Event.remove (projectName ++ ".sln")])),
        .returned
          (if Utility.deleteFiles.sumErrors
                ([] ++ [".vs", "Binaries", "Build", "Intermediate", "DerivedDataCache"].map
                    w.removeAll ++
                  (if w.stat (projectName ++ ".sln") = .notExist then []
                    else [w.remove (projectName ++ ".sln")])) "" ≠ "" then
            some (Utility.deleteFiles.sumErrors
                ([] ++ [".vs", "Binaries", "Build", "Intermediate", "DerivedDataCache"].map
                    w.removeAll ++
                  (if w.stat (projectName ++ ".sln") = .notExist then []
                    else [w.remove (projectName ++ ".sln")])) "")
          else none)⟩ := by
  simp only [Utility.deleteFiles, bind, Prog.andThen, removeFolders_eq, removeFiles_single,
    pure, Prog.ret]
  split <;> split <;> simp_all

theorem attempted_failures (w : World) (projectName : String) :
    (([] : List (Option String)) ++
        [".vs", "Binaries", "Build", "Intermediate", "DerivedDataCache"].map w.removeAll ++
        (if w.stat (projectName ++ ".sln") = .notExist then []
          else [w.remove (projectName ++ ".sln")])).filterMap id =
      [".vs", "Binaries", "Build", "Intermediate", "DerivedDataCache"].filterMap w.removeAll ++
        (if w.stat (projectName ++ ".sln") = .notExist then []
          else (w.remove (projectName ++ ".sln")).toList) := by
  rw [List.nil_append, List.filterMap_append, List.filterMap_map]
  congr 1
  by_cases hs : w.stat (projectName ++ ".sln") = .notExist
  · simp [hs]
  · cases hr : w.remove (projectName ++ ".sln") <;> simp [hs, hr]

/-- C5: `deleteFiles` calls `os.RemoveAll` on the five cache directories in
order, then looks at `<projectName>.sln` and removes it unless it does not
exist, whatever the earlier outcomes; it returns `nil` exactly when none of the
attempted deletions failed, and otherwise one error whose text is the messages
of the failing targets, each followed by a newline, in target order. -/
theorem deleteFiles_attempts_all_and_sums_errors (w : World) (projectName : String) :
    (Utility.deleteFiles w projectName).events =
        [Event.removeAll ".vs", Event.removeAll "Binaries", Event.removeAll "Build",
          Event.removeAll "Intermediate", Event.removeAll "DerivedDataCache",
          Event.stat (projectName ++ ".sln")] ++
        (if w.stat (projectName ++ ".sln") = .notExist then []
          else [Event.remove (projectName ++ ".sln")]) ∧
      (Utility.deleteFiles w projectName).outcome =
        .returned
          (if ([".vs", "Binaries", "Build", "Intermediate", "DerivedDataCache"].filterMap
                  w.removeAll ++
                (if w.stat (projectName ++ ".sln") = .notExist then []
                  else (w.remove (projectName ++ ".sln")).toList)) = [] then none
            else some (String.join
              (([".vs", "Binaries", "Build", "Intermediate", "DerivedDataCache"].filterMap
                  w.removeAll ++
                (if w.stat (projectName ++ ".sln") = .notExist then []
                  else (w.remove (projectName ++ ".sln")).toList)).map
                (fun e => e ++ "\n")))) ∧
      ((Utility.deleteFiles w projectName).outcome = .returned none ↔
        (∀ d ∈ [".vs", "Binaries", "Build", "Intermediate", "DerivedDataCache"],
            w.removeAll d = none) ∧
          (w.stat (projectName ++ ".sln") ≠ .notExist →
            w.remove (projectName ++ ".sln") = none)) := by
  have hout : (Utility.deleteFiles w projectName).outcome =
      .returned
          (if ([".vs", "Binaries", "Build", "Intermediate", "DerivedDataCache"].filterMap
                  w.removeAll ++
                (if w.stat (projectName ++ ".sln") = .notExist then []
                  else (w.remove (projectName ++ ".sln")).toList)) = [] then none
            else some (String.join
              (([".vs", "Binaries", "Build", "Intermediate", "DerivedDataCache"].filterMap
                  w.removeAll ++
                (if w.stat (projectName ++ ".sln") = .notExist then []
                  else (w.remove (projectName ++ ".sln")).toList)).map
                (fun e => e ++ "\n")))) := by
    rw [deleteFiles_run, errorText_eq, attempted_failures]
  refine ⟨by rw [deleteFiles_run]; rfl, hout, ?_⟩
  rw [hout]
  simp only [Outcome.returned.injEq]
  by_cases hs : w.stat (projectName ++ ".sln") = .notExist
  · cases h1 : w.removeAll ".vs" <;> cases h2 : w.removeAll "Binaries" <;>
      cases h3 : w.removeAll "Build" <;> cases h4 : w.removeAll "Intermediate" <;>
      cases h5 : w.removeAll "DerivedDataCache" <;>
      simp [hs, h1, h2, h3, h4, h5]
  · cases hr : w.remove (projectName ++ ".sln") <;>
      cases h1 : w.removeAll ".vs" <;> cases h2 : w.removeAll "Binaries" <;>
      cases h3 : w.removeAll "Build" <;> cases h4 : w.removeAll "Intermediate" <;>
      cases h5 : w.removeAll "DerivedDataCache" <;>
      simp [hs, hr, h1, h2, h3, h4, h5]

/-! ### Lemmas on `getUnrealInstallationPath` -/

theorem indexAt_last (names : List String) (hne : names ≠ []) :
    indexAt names ((names.length : Int) - 1) = some (names.getLast hne) := by
  have hpos : 0 < names.length := List.length_pos.mpr hne
  have hidx : ((names.length : Int) - 1).toNat = names.length - 1 := by omega
  have hrange : 0 ≤ (names.length : Int) - 1 ∧ (names.length : Int) - 1 < names.length := by
    omega
  rw [indexAt, if_pos hrange, hidx, List.getLast_eq_getElem]
  exact List.getElem?_eq_getElem (by omega)

theorem getUnrealInstallationPath_run (w : World) (names : List String) (hne : names ≠ [])
    (hopen : w.openKey = none) (hnames : w.subkeyNames = .ok names) :
    getUnrealInstallationPath w =
      match w.openSubkey (names.getLast hne) with
      | some err =>
        ⟨[.openKey "SOFTWARE\\\\EpicGames\\\\Unreal Engine", .readSubKeyNames,
            .openKey (names.getLast hne)],
          .returned ("", some ("Error opening last subkey: " ++ err))⟩
      | none =>
        ⟨[.openKey "SOFTWARE\\\\EpicGames\\\\Unreal Engine", .readSubKeyNames,
            .openKey (names.getLast hne),
            .getStringValue (names.getLast hne) "InstalledDirectory"],
          match w.installedDirectory (names.getLast hne) with
          | .error err => .returned ("", some ("Error reading InstalledDirectory value: " ++ err))
          | .ok installDir => .returned (installDir, none)⟩ := by
  simp only [getUnrealInstallationPath, hopen, hnames, indexAt_last names hne, bind,
    Prog.andThen, Prog.emit, pure, Prog.ret]
  cases w.openSubkey (names.getLast hne) with
  | some err => rfl
  | none =>
    cases w.installedDirectory (names.getLast hne) <;> rfl

theorem lexGreatest_of_sorted (names : List String) (hne : names ≠ [])
    (hsorted : names.Pairwise (fun a b => strLE a b = true)) :
    lexGreatest names = some (names.getLast hne) := by
  induction names with
  | nil => exact absurd rfl hne
  | cons a rest ih =>
    cases rest with
    | nil => rfl
    | cons b rest2 =>
      have hrest : (b :: rest2) ≠ [] := List.cons_ne_nil _ _
      have hp := List.pairwise_cons.mp hsorted
      have ih' := ih hrest hp.2
      have hle : strLE a ((b :: rest2).getLast hrest) = true :=
        hp.1 _ (List.getLast_mem hrest)
      rw [List.getLast_cons hrest]
      simp only [lexGreatest] at ih' ⊢
      rw [ih']
      simp [hle]

/-- C3 (as the code has it): for every non-empty list of entry names, in the
order the registry lookup returns them, `getUnrealInstallationPath` opens the
last entry of that list and reads its `InstalledDirectory`, which it returns
when both calls succeed; when the list is in ascending lexicographic order the
last entry is the lexicographically greatest one. -/
theorem getUnrealInstallationPath_reads_last_entry (w : World) (names : List String)
    (hne : names ≠ []) (hopen : w.openKey = none) (hnames : w.subkeyNames = .ok names) :
    (getUnrealInstallationPath w).events.take 3 =
        [.openKey "SOFTWARE\\\\EpicGames\\\\Unreal Engine", .readSubKeyNames,
          .openKey (names.getLast hne)] ∧
      (∀ n, Event.getStringValue n "InstalledDirectory" ∈ (getUnrealInstallationPath w).events →
        n = names.getLast hne) ∧
      (∀ installDir, w.openSubkey (names.getLast hne) = none →
        w.installedDirectory (names.getLast hne) = .ok installDir →
        Event.getStringValue (names.getLast hne) "InstalledDirectory" ∈
            (getUnrealInstallationPath w).events ∧
          (getUnrealInstallationPath w).outcome = .returned (installDir, none)) ∧
      (names.Pairwise (fun a b => strLE a b = true) →
        lexGreatest names = some (names.getLast hne)) := by
  rw [getUnrealInstallationPath_run w names hne hopen hnames]
  refine ⟨?_, ?_, ?_, lexGreatest_of_sorted names hne⟩
  · cases w.openSubkey (names.getLast hne) <;> rfl
  · intro n hn
    cases hsub : w.openSubkey (names.getLast hne) with
    | some err => rw [hsub] at hn; simp at hn
    | none =>
      rw [hsub] at hn
      simp at hn
      exact hn
  · intro installDir hsub hdir
    rw [hsub]
    simp [hdir]

/-- C3, witness: the entries `4.27`, `5.1`, `5.3` select `5.3`, and the entries
`5.10`, `5.9` (ascending lexicographic order) select `5.9`. -/
theorem getUnrealInstallationPath_reads_last_entry_witness :
    (getUnrealInstallationPath (registryWorld ["4.27", "5.1", "5.3"])).outcome =
        .returned ("C:\\Program Files\\Epic Games\\UE_5.3", none) ∧
      lexGreatest ["4.27", "5.1", "5.3"] = some "5.3" ∧
      (getUnrealInstallationPath (registryWorld ["5.10", "5.9"])).outcome =
        .returned ("C:\\Program Files\\Epic Games\\UE_5.9", none) ∧
      lexGreatest ["5.10", "5.9"] = some "5.9" :=
  ⟨((getUnrealInstallationPath_reads_last_entry (registryWorld ["4.27", "5.1", "5.3"])
      ["4.27", "5.1", "5.3"] (by decide) rfl rfl).2.2.1 _ rfl rfl).2,
    (getUnrealInstallationPath_reads_last_entry (registryWorld ["4.27", "5.1", "5.3"])
      ["4.27", "5.1", "5.3"] (by decide) rfl rfl).2.2.2 (by decide),
    ((getUnrealInstallationPath_reads_last_entry (registryWorld ["5.10", "5.9"])
      ["5.10", "5.9"] (by decide) rfl rfl).2.2.1 _ rfl rfl).2,
    (getUnrealInstallationPath_reads_last_entry (registryWorld ["5.10", "5.9"])
      ["5.10", "5.9"] (by decide) rfl rfl).2.2.2 (by decide)⟩

/-- C3, counterexample: when the lookup returns the entries in the order `5.9`,
`5.10`, the lexicographically greatest name is `5.9`, yet the code never reads
the installation directory of `5.9`; it reads and returns that of `5.10`. -/
theorem getUnrealInstallationPath_not_lex_greatest :
    lexGreatest ["5.9", "5.10"] = some "5.9" ∧
      Event.getStringValue "5.9" "InstalledDirectory" ∉
        (getUnrealInstallationPath (registryWorld ["5.9", "5.10"])).events ∧
      Event.getStringValue "5.10" "InstalledDirectory" ∈
        (getUnrealInstallationPath (registryWorld ["5.9", "5.10"])).events ∧
      (getUnrealInstallationPath (registryWorld ["5.9", "5.10"])).outcome =
        .returned ("C:\\Program Files\\Epic Games\\UE_5.10", none) := by
  decide

/-- C10: when the registry key opens and the enumeration succeeds with no
entry names, `getUnrealInstallationPath` indexes the list at `-1`, which is out
of range, and panics instead of returning an error; for every non-empty list
the index `len-1` is in range and the function returns. -/
theorem getUnrealInstallationPath_panics_iff_no_entries (w : World) (names : List String)
    (hopen : w.openKey = none) (hnames : w.subkeyNames = .ok names) :
    (names = [] →
        (names.length : Int) - 1 = -1 ∧ indexAt names ((names.length : Int) - 1) = none ∧
          (getUnrealInstallationPath w).outcome =
            .panicked "runtime error: index out of range [-1]") ∧
      (names ≠ [] →
        (∃ last, indexAt names ((names.length : Int) - 1) = some last) ∧
          ∃ result, (getUnrealInstallationPath w).outcome = .returned result) := by
  constructor
  · intro hnil
    subst hnil
    refine ⟨rfl, rfl, ?_⟩
    simp only [getUnrealInstallationPath, hopen, hnames, bind, Prog.andThen, Prog.emit]
    rfl
  · intro hne
    refine ⟨⟨_, indexAt_last names hne⟩, ?_⟩
    rw [getUnrealInstallationPath_run w names hne hopen hnames]
    cases w.openSubkey (names.getLast hne) with
    | some err => exact ⟨_, rfl⟩
    | none =>
      cases w.installedDirectory (names.getLast hne) with
      | error err => exact ⟨_, rfl⟩
      | ok d => exact ⟨_, rfl⟩

/-- C10, witness: with no entry under the key the function panics, with the
single entry `5.3` it returns. -/
theorem getUnrealInstallationPath_panics_iff_no_entries_witness :
    (getUnrealInstallationPath (registryWorld [])).outcome =
        .panicked "runtime error: index out of range [-1]" ∧
      ∃ result, (getUnrealInstallationPath (registryWorld ["5.3"])).outcome =
        .returned result :=
  ⟨((getUnrealInstallationPath_panics_iff_no_entries (registryWorld []) [] rfl rfl).1 rfl).2.2,
    ((getUnrealInstallationPath_panics_iff_no_entries (registryWorld ["5.3"]) ["5.3"] rfl
      rfl).2 (by decide)).2⟩

/-! ### Lemmas on the walk of `getUprojectFile` -/

mutual
theorem walk_no_match (w : World) : ∀ (n : Node) (p : String) (s : String),
    n.readable = true → uprojectFiles p n = [] →
    walk (getUprojectFile.walkFn w) p n s = (s, none)
  | .file name, p, s, _, hm => by
    simp only [uprojectFiles] at hm
    have hext : (Ext p == ".uproject") = false := by
      cases h : (Ext p == ".uproject") with
      | false => rfl
      | true => simp [h] at hm
    simp [walk, getUprojectFile.walkFn, hext]
  | .broken _ _, _, _, hr, _ => by simp [Node.readable] at hr
  | .dir name readErr entries, p, s, hr, hm => by
    simp only [Node.readable, Bool.and_eq_true, Option.isNone_iff_eq_none] at hr
    simp only [uprojectFiles] at hm
    obtain ⟨hre, hes⟩ := hr
    subst hre
    simp only [walk, getUprojectFile.walkFn, Bool.not_true, Bool.false_and, Bool.false_eq_true,
      if_false]
    exact walkNames_no_match w entries p s hes hm
theorem walkNames_no_match (w : World) : ∀ (entries : List Node) (p : String) (s : String),
    Node.allReadable entries = true → uprojectFilesIn p entries = [] →
    walkNames (getUprojectFile.walkFn w) p entries s = (s, none)
  | [], _, _, _, _ => by simp [walkNames]
  | child :: rest, p, s, hr, hm => by
    simp only [Node.allReadable, Bool.and_eq_true] at hr
    simp only [uprojectFilesIn, List.append_eq_nil] at hm
    have h1 := walk_no_match w child (Join [p, child.name]) s hr.1 hm.1
    have h2 := walkNames_no_match w rest p s hr.2 hm.2
    cases child with
    | broken n e => simp [Node.readable] at hr
    | file n => 
      simp only [walkNames]
      rw [h1]
      exact h2
    | dir n re es =>
      simp only [walkNames]
      rw [h1]
      exact h2
end
theorem append_eq_single {α : Type} (xs ys : List α) (q : α) (h : xs ++ ys = [q]) :
    (xs = [q] ∧ ys = []) ∨ (xs = [] ∧ ys = [q]) := by
  cases xs with
  | nil => right; exact ⟨rfl, by simpa using h⟩
  | cons x xs' =>
    left
    simp only [List.cons_append, List.cons.injEq, List.append_eq_nil] at h
    obtain ⟨hx, hxs, hys⟩ := h
    subst hx hxs hys
    exact ⟨rfl, rfl⟩

mutual
theorem walk_one_match (w : World) (q a : String) (habs : w.abs q = (a, none)) :
    ∀ (n : Node) (p : String) (s : String),
    n.readable = true → uprojectFiles p n = [q] →
    ∃ r, walk (getUprojectFile.walkFn w) p n s = (a, r) ∧ (r = none ∨ r = some .skipDir)
  | .file name, p, s, _, hm => by
    simp only [uprojectFiles] at hm
    cases hext : (Ext p == ".uproject") with
    | false => simp [hext] at hm
    | true =>
      simp only [hext, if_true, List.cons.injEq, and_true] at hm
      subst hm
      refine ⟨some .skipDir, ?_, Or.inr rfl⟩
      simp [walk, getUprojectFile.walkFn, hext, habs]
  | .broken _ _, _, _, hr, _ => by simp [Node.readable] at hr
  | .dir name readErr entries, p, s, hr, hm => by
    simp only [Node.readable, Bool.and_eq_true, Option.isNone_iff_eq_none] at hr
    simp only [uprojectFiles] at hm
    obtain ⟨hre, hes⟩ := hr
    subst hre
    simp only [walk, getUprojectFile.walkFn, Bool.not_true, Bool.false_and, Bool.false_eq_true,
      if_false]
    exact walkNames_one_match w q a habs entries p s hes hm
theorem walkNames_one_match (w : World) (q a : String) (habs : w.abs q = (a, none)) :
    ∀ (entries : List Node) (p : String) (s : String),
    Node.allReadable entries = true → uprojectFilesIn p entries = [q] →
    ∃ r, walkNames (getUprojectFile.walkFn w) p entries s = (a, r) ∧
      (r = none ∨ r = some .skipDir)
  | [], _, _, _, hm => by simp [uprojectFilesIn] at hm
  | child :: rest, p, s, hr, hm => by
    simp only [Node.allReadable, Bool.and_eq_true] at hr
    simp only [uprojectFilesIn] at hm
    rcases append_eq_single _ _ q hm with ⟨hc, hrest⟩ | ⟨hc, hrest⟩
    · obtain ⟨r, hwalk, hr'⟩ := walk_one_match w q a habs child (Join [p, child.name]) s hr.1 hc
      have h2 := walkNames_no_match w rest p a hr.2 hrest
      cases child with
      | broken n e => simp [Node.readable] at hr
      | file n =>
        simp only [walkNames]
        rw [hwalk]
        rcases hr' with rfl | rfl
        · exact ⟨none, h2, Or.inl rfl⟩
        · exact ⟨some .skipDir, by simp [Node.isDir], Or.inr rfl⟩
      | dir n re es =>
        simp only [walkNames]
        rw [hwalk]
        rcases hr' with rfl | rfl
        · exact ⟨none, h2, Or.inl rfl⟩
        · exact ⟨none, by simpa [Node.isDir] using h2, Or.inl rfl⟩
    · have h1 := walk_no_match w child (Join [p, child.name]) s hr.1 hc
      obtain ⟨r, hwalk, hr'⟩ := walkNames_one_match w q a habs rest p s hr.2 hrest
      cases child with
      | broken n e => simp [Node.readable] at hr
      | file n =>
        simp only [walkNames]
        rw [h1]
        exact ⟨r, hwalk, hr'⟩
      | dir n re es =>
        simp only [walkNames]
        rw [h1]
        exact ⟨r, hwalk, hr'⟩
end

theorem Walk_no_match (w : World) (tree : Node) (hread : tree.readable = true)
    (hnone : uprojectFiles "." tree = []) :
    Walk (getUprojectFile.walkFn w) "." tree "" = ("", none) := by
  simp only [Walk, walk_no_match w tree "." "" hread hnone]

theorem Walk_one_match (w : World) (tree : Node) (q a : String)
    (hread : tree.readable = true) (hone : uprojectFiles "." tree = [q])
    (habs : w.abs q = (a, none)) :
    Walk (getUprojectFile.walkFn w) "." tree "" = (a, none) := by
  obtain ⟨r, hwalk, hr⟩ := walk_one_match w q a habs tree "." "" hread hone
  rcases hr with rfl | rfl <;> simp only [Walk, hwalk]

/-- C7: when the walk meets no I/O error and the tree under the working
directory holds exactly one non-directory entry with extension `.uproject`,
`getUprojectFile` (of either program) returns the absolute path of that entry
and a `nil` error, wherever the entry lies in the tree. -/
theorem getUprojectFile_returns_the_only_descriptor (w : World) (q a : String)
    (hread : (w.nodeAt ".").readable = true)
    (hone : uprojectFiles "." (w.nodeAt ".") = [q])
    (habs : w.abs q = (a, none)) (ha : a ≠ "") :
    (Utility.getUprojectFile w).outcome = .returned (a, none) ∧
      (Builder.getUprojectFile w).outcome = .returned (a, none) := by
  have hW := Walk_one_match w (w.nodeAt ".") q a hread hone habs
  constructor
  · simp [Utility.getUprojectFile, bind, Prog.andThen, Prog.emit, pure, Prog.ret, hW, ha]
  · simp [Builder.getUprojectFile, bind, Prog.andThen, Prog.emit, pure, Prog.ret, hW, ha]

/-- C7, witness: the only descriptor of `deepTree` lies three levels down, after
and before other files and directories, and is returned. -/
theorem getUprojectFile_returns_the_only_descriptor_witness :
    uprojectFiles "." deepTree = ["Game\\Proj\\Demo.uproject"] ∧
      (Utility.getUprojectFile (projectWorld deepTree)).outcome =
        .returned ("C:\\Project\\Game\\Proj\\Demo.uproject", none) ∧
      (Builder.getUprojectFile (projectWorld deepTree)).outcome =
        .returned ("C:\\Project\\Game\\Proj\\Demo.uproject", none) :=
  ⟨by decide,
    getUprojectFile_returns_the_only_descriptor (projectWorld deepTree)
      "Game\\Proj\\Demo.uproject" "C:\\Project\\Game\\Proj\\Demo.uproject"
      (by decide) (by decide) (by decide) (by decide)⟩

/-- C8: when the walk meets no I/O error and the tree under the working
directory holds no non-directory entry with extension `.uproject`,
`getUprojectFile` (of either program) returns the empty path together with its
not-found error. -/
theorem getUprojectFile_not_found (w : World)
    (hread : (w.nodeAt ".").readable = true)
    (hnone : uprojectFiles "." (w.nodeAt ".") = []) :
    (Utility.getUprojectFile w).outcome =
        .returned ("", some ("No uproject file found in directory: " ++ (w.abs ".").1 ++
          "\nAre you sure this exe file is located in an unreal engine project?")) ∧
      (Builder.getUprojectFile w).outcome =
        .returned ("", some ("No uproject file found in this directory. " ++ (w.abs ".").1 ++
          "\nAre you sure this exe file is located in an unreal engine project?")) := by
  have hW := Walk_no_match w (w.nodeAt ".") hread hnone
  constructor
  · simp [Utility.getUprojectFile, bind, Prog.andThen, Prog.emit, pure, Prog.ret, hW]
  · simp [Builder.getUprojectFile, bind, Prog.andThen, Prog.emit, pure, Prog.ret, hW]

/-- C8, witness: `noDescriptorTree` has a directory named `Old.uproject` and no
descriptor file; the search fails with the not-found error. -/
theorem getUprojectFile_not_found_witness :
    (Utility.getUprojectFile (projectWorld noDescriptorTree)).outcome =
        .returned ("", some ("No uproject file found in directory: C:\\Project" ++
          "\nAre you sure this exe file is located in an unreal engine project?")) ∧
      (Builder.getUprojectFile (projectWorld noDescriptorTree)).outcome =
        .returned ("", some ("No uproject file found in this directory. C:\\Project" ++
          "\nAre you sure this exe file is located in an unreal engine project?")) :=
  getUprojectFile_not_found (projectWorld noDescriptorTree) (by decide) (by decide)

/-- C2, the code at a tree with two descriptors: the walk raises no I/O error,
the first descriptor in depth-first order is `a\x.uproject`, and
`getUprojectFile` (of either program) returns `b\y.uproject`: `SkipDir` ends
the walk of directory `a` only, and the match in `b` replaces the first. -/
theorem getUprojectFile_later_match_replaces_first :
    twoDescriptorsTree.readable = true ∧
      uprojectFiles "." twoDescriptorsTree = ["a\\x.uproject", "b\\y.uproject"] ∧
      (Utility.getUprojectFile (projectWorld twoDescriptorsTree)).outcome =
        .returned ("C:\\Project\\b\\y.uproject", none) ∧
      (Builder.getUprojectFile (projectWorld twoDescriptorsTree)).outcome =
        .returned ("C:\\Project\\b\\y.uproject", none) := by
  decide

/-! ### Lemmas on `getUBTPath` -/

theorem getUnrealInstallationPath_events_registry (w : World) :
    ∀ e ∈ (getUnrealInstallationPath w).events, e.isRegistry = true := by
  intro e he
  simp only [getUnrealInstallationPath, bind, Prog.andThen, Prog.emit, pure, Prog.ret,
    Prog.abort] at he
  cases h1 : w.openKey with
  | some err => simp [h1] at he; subst he; rfl
  | none =>
    cases h2 : w.subkeyNames with
    | error err =>
      simp [h1, h2] at he
      rcases he with rfl | rfl <;> rfl
    | ok names =>
      cases h3 : indexAt names ((names.length : Int) - 1) with
      | none =>
        simp [h1, h2, h3] at he
        rcases he with rfl | rfl <;> rfl
      | some last =>
        cases h4 : w.openSubkey last with
        | some err =>
          simp [h1, h2, h3, h4] at he
          rcases he with rfl | rfl | rfl <;> rfl
        | none =>
          cases h5 : w.installedDirectory last <;>
            simp [h1, h2, h3, h4, h5] at he <;>
            rcases he with rfl | rfl | rfl | rfl <;> rfl

theorem getUBTPath_run_conventional (w : World) (installPath : String)
    (hinstall : (getUnrealInstallationPath w).outcome = .returned (installPath, none))
    (hdir : w.stat installPath = .found)
    (hubt : w.stat (Join [installPath, "Engine", "Binaries", "DotNET", "UnrealBuildTool",
      "UnrealBuildTool.exe"]) = .found) :
    getUBTPath w =
      ⟨(getUnrealInstallationPath w).events ++
          [.stat installPath,
            .stat (Join [installPath, "Engine", "Binaries", "DotNET", "UnrealBuildTool",
              "UnrealBuildTool.exe"])],
        .returned (Join [installPath, "Engine", "Binaries", "DotNET", "UnrealBuildTool",
          "UnrealBuildTool.exe"], none)⟩ := by
  simp [getUBTPath, bind, Prog.andThen, hinstall, isPathValid, Prog.emit, pure, Prog.ret,
    hdir, hubt]

/-- C6: when the registry lookup yields an installation directory that exists
and the conventional path `<dir>\Engine\Binaries\DotNET\UnrealBuildTool\UnrealBuildTool.exe`
exists, `getUBTPath` returns exactly that path; after the registry lookup it
only checks the two paths: it starts no directory walk (`findFile` is not
called) and prints nothing, whatever else lies under the directory. -/
theorem getUBTPath_conventional_path_without_scan (w : World) (installPath : String)
    (hinstall : (getUnrealInstallationPath w).outcome = .returned (installPath, none))
    (hdir : w.stat installPath = .found)
    (hubt : w.stat (Join [installPath, "Engine", "Binaries", "DotNET", "UnrealBuildTool",
      "UnrealBuildTool.exe"]) = .found) :
    (getUBTPath w).outcome =
        .returned (Join [installPath, "Engine", "Binaries", "DotNET", "UnrealBuildTool",
          "UnrealBuildTool.exe"], none) ∧
      (getUBTPath w).events =
        (getUnrealInstallationPath w).events ++
          [.stat installPath,
            .stat (Join [installPath, "Engine", "Binaries", "DotNET", "UnrealBuildTool",
              "UnrealBuildTool.exe"])] ∧
      (∀ root, Event.walk root ∉ (getUBTPath w).events) ∧
      (∀ text, Event.print text ∉ (getUBTPath w).events) := by
  rw [getUBTPath_run_conventional w installPath hinstall hdir hubt]
  refine ⟨rfl, rfl, ?_, ?_⟩
  · intro root hmem
    rcases List.mem_append.mp hmem with h | h
    · have := getUnrealInstallationPath_events_registry w _ h
      simp [Event.isRegistry] at this
    · simp at h
  · intro text hmem
    rcases List.mem_append.mp hmem with h | h
    · have := getUnrealInstallationPath_events_registry w _ h
      simp [Event.isRegistry] at this
    · simp at h

/-- C6, witness: in `engineWorld` a walk of the installation would end with
`Zed\UnrealBuildTool.exe`, after meeting `AAA\UnrealBuildTool.exe` first;
`getUBTPath` returns the conventional path and walks nothing. -/
theorem getUBTPath_conventional_path_without_scan_witness :
    (findFile engineWorld engineDir "UnrealBuildTool.exe").outcome =
        .returned ("C:\\Program Files\\Epic Games\\UE_5.3\\Zed\\UnrealBuildTool.exe", none) ∧
      (getUBTPath engineWorld).outcome = .returned (engineUBT, none) ∧
      (∀ root, Event.walk root ∉ (getUBTPath engineWorld).events) ∧
      (∀ text, Event.print text ∉ (getUBTPath engineWorld).events) :=
  ⟨by decide,
    (getUBTPath_conventional_path_without_scan engineWorld engineDir (by decide) (by decide)
      (by decide)).1,
    (getUBTPath_conventional_path_without_scan engineWorld engineDir (by decide) (by decide)
      (by decide)).2.2⟩

/-! ### The entry workflows at a descriptor without modules -/

/-- C4, the code at `brokenDescriptorWorld`: `getProjectName` returns an error
and the compile command fails to start, yet the calls `main` makes go on. In
`unreal-utility` the five directories are deleted and both build-tool commands
are launched after the failed parse; in both programs the output of the
command that did not start is read and the command is waited on. -/
theorem main_goes_on_after_failed_stages :
    (getProjectName brokenDescriptorWorld "C:\\Project\\Demo.uproject").outcome =
        .returned ("", some "No project name found.\n") ∧
      brokenDescriptorWorld.start (compileArgv engineUBT "C:\\Project\\Demo.uproject" "") =
        some "exec: file does not exist" ∧
      (Utility.main brokenDescriptorWorld).events.filter (fun e => !e.isPrint) =
        [.walk ".", .readFile "C:\\Project\\Demo.uproject",
          .removeAll ".vs", .removeAll "Binaries", .removeAll "Build",
          .removeAll "Intermediate", .removeAll "DerivedDataCache", .stat ".sln",
          .openKey "SOFTWARE\\\\EpicGames\\\\Unreal Engine", .readSubKeyNames,
          .openKey "5.3", .getStringValue "5.3" "InstalledDirectory",
          .stat engineDir, .stat engineUBT,
          .run (generateArgv engineUBT "C:\\Project\\Demo.uproject"),
          .stdoutPipe (compileArgv engineUBT "C:\\Project\\Demo.uproject" ""),
          .start (compileArgv engineUBT "C:\\Project\\Demo.uproject" ""),
          .scan (compileArgv engineUBT "C:\\Project\\Demo.uproject" ""),
          .wait (compileArgv engineUBT "C:\\Project\\Demo.uproject" "")] ∧
      (Builder.main brokenDescriptorWorld).events.filter (fun e => !e.isPrint) =
        [.walk ".", .readFile "C:\\Project\\Demo.uproject", .scanln,
          .openKey "SOFTWARE\\\\EpicGames\\\\Unreal Engine", .readSubKeyNames,
          .openKey "5.3", .getStringValue "5.3" "InstalledDirectory",
          .stat engineDir, .stat engineUBT,
          .stdoutPipe (compileArgv engineUBT "C:\\Project\\Demo.uproject" ""),
          .start (compileArgv engineUBT "C:\\Project\\Demo.uproject" ""), .scanln,
          .scan (compileArgv engineUBT "C:\\Project\\Demo.uproject" ""), .scanln,
          .wait (compileArgv engineUBT "C:\\Project\\Demo.uproject" ""), .scanln] := by
  decide

end Unreal
